import Mathlib

/-!
Verification of the `enhanced-rass` repository against its specification.

The repository has three Python source files:
* `rass-engine-service/py_reranker/rerank_service.py` — a FastAPI reranking
  microservice (`POST /rerank`) that scores (query, document) pairs with a
  cross-encoder model, sorts the documents by descending score with Python's
  stable `sorted`, and optionally truncates to `top_k`;
* `evaluation/trulens_evaluator/evaluate.py` — an evaluation driver whose
  `RASS_App.query_with_context` posts a question to a RAG engine, defensively
  extracts an answer and a concatenated context from the JSON response, and
  converts caught `requests` exceptions into `{"answer": "Error: <e>",
  "context": ""}` records;
* `evaluation/ragas_evaluator/evaluate.py` — a second evaluation driver.

This file shallowly embeds the relevant fragments.  Python quirks that the
claims exercise are modelled explicitly: integer truthiness (`if req.top_k:`),
negative-slice semantics (`xs[:k]` for `k < 0`), `dict.get` with defaults,
truthiness of JSON values (`a or b`, `if text:`), the fact that only
`FileNotFoundError` is caught when `config.yml` is read, and the uncaught
`AttributeError`/`NameError`/`yaml.YAMLError` paths.

The cross-encoder model is an opaque external dependency; it is modelled as a
function `String → String → ℚ` (the claims concern only the ordering and
identity of scores, never float rounding).  Python's stable `sorted` is
modelled by `List.mergeSort`, which is likewise a stable sort.
-/

/-! ## Reranking service (`rerank_service.py`) — data model and handler -/

/-- Python list slice `xs[:k]` for an integer `k` (as produced by
`indices[:req.top_k]` in `rerank_service.py`): a nonnegative `k` keeps the
first `k` elements; a negative `k` drops the last `|k|` elements. -/
def pySliceTo {α : Type} (xs : List α) (k : Int) : List α :=
  if 0 ≤ k then xs.take k.toNat else xs.take (xs.length - (-k).toNat)

/-- The comparison Python's `sorted(enumerate(scores), key=lambda x: -x[1])`
sorts by: descending second component (the score).  `mergeSort` with this
relation is a stable descending sort on scores, exactly Python's behaviour. -/
def scoreDescLE (a b : Nat × ℚ) : Bool := decide (b.2 ≤ a.2)

/-- Request body of `POST /rerank` (`class RerankRequest` in
`rerank_service.py`): `query: str`, `documents: List[str]`,
`top_k: int = None`. -/
structure RerankRequest where
  query : String
  documents : List String
  top_k : Option Int := none

/-- Response body of `POST /rerank` (`class RerankResult`). Scores are
modelled as rationals. -/
structure RerankResult where
  reranked : List Nat
  scores : List ℚ
deriving DecidableEq

/-- Outcome of the `/rerank` handler: a result, or an `HTTPException`. -/
inductive RerankResponse where
  | ok (result : RerankResult)
  | httpError (status : Nat) (detail : String)
deriving DecidableEq

/-- The `/rerank` handler (`def rerank(req)` in `rerank_service.py`),
parameterised by the opaque cross-encoder `model`:

* `if not req.documents or not req.query:` → HTTP 400;
* `pairs = [(req.query, doc) for doc in req.documents]`;
* `scores = model.predict(pairs)`;
* `reranked = sorted(enumerate(scores), key=lambda x: -x[1])` (stable);
* `if req.top_k:` (truthy, i.e. present and nonzero) → slice both lists
  with `[:req.top_k]`. -/
def rerank (model : String → String → ℚ) (req : RerankRequest) : RerankResponse :=
  if req.documents = [] ∨ req.query = "" then
    .httpError 400 "Missing query or documents."
  else
    let pairs := req.documents.map (fun doc => (req.query, doc))
    let scores := pairs.map (fun p => model p.1 p.2)
    let reranked := scores.enum.mergeSort scoreDescLE
    let indices := reranked.map (fun x => x.1)
    let sorted_scores := reranked.map (fun x => x.2)
    match req.top_k with
    | none => .ok ⟨indices, sorted_scores⟩
    | some k =>
      if k = 0 then .ok ⟨indices, sorted_scores⟩
      else .ok ⟨pySliceTo indices k, pySliceTo sorted_scores k⟩

/-- The score list the handler computes (`scores = model.predict(pairs)`,
with `pairs = [(req.query, doc) for doc in req.documents]`). -/
def modelScores (model : String → String → ℚ) (req : RerankRequest) : List ℚ :=
  (req.documents.map (fun doc => (req.query, doc))).map (fun p => model p.1 p.2)

/-- The stably sorted enumerated score list
(`reranked = sorted(enumerate(scores), key=lambda x: -x[1])`). -/
def sortedEnum (model : String → String → ℚ) (req : RerankRequest) : List (Nat × ℚ) :=
  (modelScores model req).enum.mergeSort scoreDescLE

/-- The model of the spec's worked example: it assigns scores
`0.2, 0.9, 0.5` to the documents `"cat", "dog", "fish"`. -/
def exampleModel : String → String → ℚ :=
  fun _ doc => if doc = "dog" then 9/10 else if doc = "fish" then 1/2 else 1/5

/-- A model that scores every pair `0`; used to exercise tie-breaking. -/
def constModel : String → String → ℚ := fun _ _ => 0

/-! ## Evaluation driver (`trulens_evaluator/evaluate.py`) — data model -/

/-- JSON values: the model of parsed `response.json()` bodies and of parsed
YAML configuration values. -/
inductive JValue where
  | null
  | bool (b : Bool)
  | num (q : ℚ)
  | str (s : String)
  | arr (elems : List JValue)
  | obj (fields : List (String × JValue))

/-- Is this JSON value a string? -/
def JValue.isStr : JValue → Bool
  | .str _ => true
  | _ => false

/-- Python `d.get(key)` on a JSON object's field list (`None` ↦ `none`). -/
def pyDictGet : List (String × JValue) → String → Option JValue
  | [], _ => none
  | (k, v) :: rest, key => if k = key then some v else pyDictGet rest key

/-- Python truthiness of a JSON-derived value. -/
def jTruthy : JValue → Bool
  | .null => false
  | .bool b => b
  | .num q => decide (q ≠ 0)
  | .str s => decide (s ≠ "")
  | .arr xs => !xs.isEmpty
  | .obj fs => !fs.isEmpty

/-- Python `str(...)` on a JSON-derived value.  String values pass through
unchanged (the only case the evaluation claims exercise); other values get a
printed form whose exact rendering no claim depends on. -/
def pyStr : JValue → String
  | .str s => s
  | .null => "None"
  | .bool true => "True"
  | .bool false => "False"
  | .num q => toString q
  | .arr _ => "<list>"
  | .obj _ => "<dict>"

/-- Outcome of `requests.post(...)`, `raise_for_status()` and `.json()` in
`query_with_context`: either some `requests.RequestException` was raised
(timeout, connection refused, a non-2xx status via `raise_for_status`, or an
unparsable body — `requests`' `JSONDecodeError` is a `RequestException`),
carrying the exception's message, or a 2xx response with a parsed JSON
body. -/
inductive NetOutcome where
  | requestException (msg : String)
  | response (body : JValue)

/-- The dictionary `query_with_context` returns: exactly the keys `answer`
and `context`.  `answer` holds whatever JSON value
`data.get("answer", "No answer found.")` produced; `context` is always a
string.  `warnedNoContext` records whether the
`"Warning: No text found in source_documents ..."` line was printed. -/
structure QueryOutput where
  answer : JValue
  context : String
  warnedNoContext : Bool

/-- One iteration of the context-extraction loop for a document `doc`:
`text = doc.get('_source', {}).get('text') or doc.get('text')`, then
`if text: context_list.append(str(text))`.  A non-dict `doc` is skipped by
the `isinstance(doc, dict)` guard; a present but non-dict `_source` raises
an uncaught `AttributeError`. -/
def extractDocText : JValue → Except String (Option String)
  | .obj fields =>
    match (pyDictGet fields "_source").getD (.obj []) with
    | .obj sfields =>
      let t1 := (pyDictGet sfields "text").getD .null
      let t2 := (pyDictGet fields "text").getD .null
      let text := if jTruthy t1 then t1 else t2
      .ok (if jTruthy text then some (pyStr text) else none)
    | _ => .error "AttributeError"
  | _ => .ok none

/-- The `for doc in source_docs:` loop accumulating `context_list`. -/
def collectContexts : List JValue → Except String (List String)
  | [] => .ok []
  | doc :: rest => do
    let t ← extractDocText doc
    let ts ← collectContexts rest
    match t with
    | some s => .ok (s :: ts)
    | none => .ok ts

/-- `RASS_App.query_with_context`, as a function of the network outcome.
An `.error e` result models an uncaught Python exception `e` escaping the
method (the `except` clause catches only
`requests.exceptions.RequestException`). -/
def query_with_context : NetOutcome → Except String QueryOutput
  | .requestException msg => .ok ⟨.str ("Error: " ++ msg), "", false⟩
  | .response data =>
    match data with
    | .obj fields =>
      let answer := (pyDictGet fields "answer").getD (.str "No answer found.")
      let source_docs := (pyDictGet fields "source_documents").getD (.arr [])
      let ctxs : Except String (List String) :=
        match source_docs with
        | .arr docs => if docs.isEmpty then .ok [] else collectContexts docs
        | _ => .ok []
      match ctxs with
      | .error e => .error e
      | .ok cl =>
        let context := String.intercalate "\n\n" cl
        .ok ⟨answer, context, decide (context = "")⟩
    | _ => .error "AttributeError"

/-- The `__main__` loop of `evaluate.py`: one `query_with_context` call per
question, in order, collecting each record.  An uncaught exception aborts the
batch (second component `false`); a caught `RequestException` cannot abort it,
since `query_with_context` converts it into a record. -/
def runBatch (oracle : String → NetOutcome) : List String → List QueryOutput × Bool
  | [] => ([], true)
  | q :: rest =>
    match query_with_context (oracle q) with
    | .error _ => ([], false)
    | .ok r =>
      let p := runBatch oracle rest
      (r :: p.1, p.2)

/-- Does this document avoid the uncaught-`AttributeError` path of the
extraction loop: if it is an object with an `_source` field, that field is
itself an object. -/
def SourceWF : JValue → Prop
  | .obj fields => ∀ v, pyDictGet fields "_source" = some v → ∃ sf, v = JValue.obj sf
  | _ => True

/-- The text snippet the spec says a document contributes to the context:
`doc['_source']['text']` when present and truthy, else `doc['text']` when
truthy, else nothing; non-dict documents contribute nothing.  Stated from the
spec's words, to be compared with the code's `extractDocText`. -/
def contextTextOfDoc : JValue → Option String
  | .obj fields =>
    let t1 :=
      match pyDictGet fields "_source" with
      | some (.obj sfields) => (pyDictGet sfields "text").getD .null
      | _ => .null
    let text := if jTruthy t1 then t1 else (pyDictGet fields "text").getD .null
    if jTruthy text then some (pyStr text) else none
  | _ => none

/-! ## Reranking service configuration loading -/

/-- The on-disk state of `config.yml` as seen at service startup. -/
inductive ConfigFile where
  | absent
  | unparsable
  | parsed (value : JValue)

/-- The hardcoded default reranker model name. -/
def defaultModelName : String := "cross-encoder/ms-marco-MiniLM-L-6-v2"

/-- Module-load configuration (lines 10–17 of `rerank_service.py`): only
`FileNotFoundError` is caught; a YAML parse error or a parsed non-dict value
raises out of module load (`yaml.YAMLError` resp. `AttributeError`).  Returns
the binding of the Python name `config` — never bound when the file is
absent, because `open` raises before the assignment — and the value bound to
`MODEL_NAME`. -/
def loadStartupConfig : ConfigFile → Except String (Option (List (String × JValue)) × JValue)
  | .absent => .ok (none, .str defaultModelName)
  | .unparsable => .error "yaml.YAMLError"
  | .parsed (.obj fields) =>
    .ok (some fields, (pyDictGet fields "RERANKER_MODEL_NAME").getD (.str defaultModelName))
  | .parsed _ => .error "AttributeError"

/-- `__main__` port selection (line 51 of `rerank_service.py`):
`port = config.get("RERANKER_PORT", 8008)`; raises `NameError` when the
name `config` was never bound. -/
def mainPort : Option (List (String × JValue)) → Except String JValue
  | none => .error "NameError"
  | some fields => .ok ((pyDictGet fields "RERANKER_PORT").getD (.num 8008))

/-! ## Helper lemmas: the stable descending sort -/

lemma scoreDescLE_trans : ∀ a b c : Nat × ℚ,
    scoreDescLE a b → scoreDescLE b c → scoreDescLE a c := by
  intro a b c hab hbc
  simp only [scoreDescLE, decide_eq_true_eq] at *
  exact hbc.trans hab

lemma scoreDescLE_total : ∀ a b : Nat × ℚ, scoreDescLE a b || scoreDescLE b a := by
  intro a b
  simp only [scoreDescLE, Bool.or_eq_true, decide_eq_true_eq]
  exact le_total b.2 a.2

lemma pySliceTo_eq_take {α : Type} (xs : List α) (k : Int) :
    pySliceTo xs k = xs.take (if 0 ≤ k then k.toNat else xs.length - (-k).toNat) := by
  unfold pySliceTo
  split <;> rfl

lemma enumFrom_pair_sublist {α : Type} :
    ∀ {i : Nat} {l : List α} {a b : Nat × α},
      a ∈ List.enumFrom i l → b ∈ List.enumFrom i l → a.1 < b.1 →
      List.Sublist [a, b] (List.enumFrom i l) := by
  intro i l
  induction l generalizing i with
  | nil => intro a b ha _ _; simp at ha
  | cons x xs ih =>
    intro a b ha hb hab
    rw [List.enumFrom_cons] at ha hb ⊢
    rcases List.mem_cons.mp ha with ha' | ha'
    · rcases List.mem_cons.mp hb with hb' | hb'
      · subst ha'; subst hb'; omega
      · subst ha'
        exact (List.singleton_sublist.mpr hb').cons₂ _
    · rcases List.mem_cons.mp hb with hb' | hb'
      · have := (List.mem_enumFrom ha').1
        subst hb'
        omega
      · exact (ih ha' hb' hab).cons _

lemma sublist_pair_antisym {α : Type} :
    ∀ {l : List α} {a b : α}, l.Nodup →
      List.Sublist [a, b] l → List.Sublist [b, a] l → a = b := by
  intro l
  induction l with
  | nil => intro a b _ h1 _; cases h1
  | cons x xs ih =>
    intro a b hnd h1 h2
    obtain ⟨hx, hxs⟩ := List.nodup_cons.mp hnd
    cases h1 with
    | cons _ h1' =>
      cases h2 with
      | cons _ h2' => exact ih hxs h1' h2'
      | cons₂ h2' =>
        -- here b = x, yet b ∈ xs by h1', contradicting x ∉ xs
        exact absurd (h1'.subset (by simp)) hx
    | cons₂ h1' =>
      cases h2 with
      | cons _ h2' =>
        -- here a = x, yet a ∈ xs by h2', contradicting x ∉ xs
        exact absurd (h2'.subset (by simp)) hx
      | cons₂ h2' => rfl

lemma enum_nodup {α : Type} (l : List α) : l.enum.Nodup := by
  have h : (l.enum.map Prod.fst).Nodup := by
    rw [List.enum_map_fst]
    exact List.nodup_range _
  exact h.of_map _

/-- Stability of the handler's sort: among entries with equal scores, the
original indices appear in increasing order. -/
lemma mergeSort_scoreDesc_stable (l : List ℚ) :
    (l.enum.mergeSort scoreDescLE).Pairwise (fun a b => a.2 = b.2 → a.1 < b.1) := by
  rw [List.pairwise_iff_forall_sublist]
  intro a b hsub heq
  have hnd : (l.enum.mergeSort scoreDescLE).Nodup :=
    (List.mergeSort_perm l.enum scoreDescLE).symm.nodup (enum_nodup l)
  have hne : a ≠ b := by
    intro h
    subst h
    have : ([a, a] : List (Nat × ℚ)).Nodup := hsub.nodup hnd
    simp at this
  have h1ne : a.1 ≠ b.1 := by
    intro h
    exact hne (Prod.ext h heq)
  rcases Nat.lt_or_ge a.1 b.1 with h | h
  · exact h
  · exfalso
    have hba : b.1 < a.1 := by omega
    have hma : a ∈ l.enum := List.mem_mergeSort.mp (hsub.subset (by simp))
    have hmb : b ∈ l.enum := List.mem_mergeSort.mp (hsub.subset (by simp))
    have hsub' : List.Sublist [b, a] l.enum := by
      have he : l.enum = List.enumFrom 0 l := rfl
      rw [he] at hmb hma ⊢
      exact enumFrom_pair_sublist hmb hma hba
    have hpair : ([b, a] : List (Nat × ℚ)).Pairwise (fun x y => scoreDescLE x y) := by
      rw [List.pairwise_pair]
      simp [scoreDescLE, heq]
    have h2 : List.Sublist [b, a] (l.enum.mergeSort scoreDescLE) :=
      List.sublist_mergeSort scoreDescLE_trans scoreDescLE_total hpair hsub'
    exact hne (sublist_pair_antisym hnd hsub h2)

/-- Sortedness of the handler's sort: scores are non-increasing. -/
lemma mergeSort_scoreDesc_sorted (l : List ℚ) :
    (l.enum.mergeSort scoreDescLE).Pairwise (fun a b => b.2 ≤ a.2) := by
  have h := List.sorted_mergeSort scoreDescLE_trans scoreDescLE_total l.enum
  exact h.imp (by intro a b hab; simpa [scoreDescLE] using hab)

/-- Every entry of the sorted list pairs a valid index with that index's
score. -/
lemma mem_mergeSort_enum {l : List ℚ} {p : Nat × ℚ}
    (hp : p ∈ l.enum.mergeSort scoreDescLE) :
    ∃ h : p.1 < l.length, p.2 = l[p.1] := by
  have hm := List.mem_mergeSort.mp hp
  have h := List.mem_enum (x := p.2) (i := p.1) (by simpa using hm)
  exact ⟨h.1, h.2⟩

/-! ## Helper lemmas: structure of `rerank`'s results -/

lemma rerank_not_rejected (model : String → String → ℚ) (req : RerankRequest)
    (h : ¬(req.documents = [] ∨ req.query = "")) :
    rerank model req =
      match req.top_k with
      | none => .ok ⟨(sortedEnum model req).map (fun x => x.1),
                     (sortedEnum model req).map (fun x => x.2)⟩
      | some k =>
        if k = 0 then
          .ok ⟨(sortedEnum model req).map (fun x => x.1),
               (sortedEnum model req).map (fun x => x.2)⟩
        else
          .ok ⟨pySliceTo ((sortedEnum model req).map (fun x => x.1)) k,
               pySliceTo ((sortedEnum model req).map (fun x => x.2)) k⟩ := by
  unfold rerank sortedEnum modelScores
  rw [if_neg h]

/-- Every `ok` result of the handler consists of a common-length prefix of
the sorted index list and the sorted score list. -/
lemma rerank_ok_take (model : String → String → ℚ) (req : RerankRequest)
    (r : RerankResult) (h : rerank model req = .ok r) :
    ∃ n, r.reranked = ((sortedEnum model req).map (fun x => x.1)).take n ∧
         r.scores = ((sortedEnum model req).map (fun x => x.2)).take n := by
  by_cases hrej : req.documents = [] ∨ req.query = ""
  · unfold rerank at h
    rw [if_pos hrej] at h
    cases h
  · rw [rerank_not_rejected model req hrej] at h
    split at h
    · injection h with h'
      subst h'
      exact ⟨(sortedEnum model req).length, by simp, by simp⟩
    · rename_i k hk
      split at h
      · injection h with h'
        subst h'
        exact ⟨(sortedEnum model req).length, by simp, by simp⟩
      · injection h with h'
        subst h'
        refine ⟨if 0 ≤ k then k.toNat else (sortedEnum model req).length - (-k).toNat,
          ?_, ?_⟩ <;>
        · simp only [pySliceTo_eq_take, List.length_map]

/-! ## Worked-example evaluation lemmas -/

lemma exampleModel_cat (q : String) : exampleModel q "cat" = 1/5 := by
  unfold exampleModel
  rw [if_neg (by decide), if_neg (by decide)]

lemma exampleModel_dog (q : String) : exampleModel q "dog" = 9/10 := by
  unfold exampleModel
  rw [if_pos rfl]

lemma exampleModel_fish (q : String) : exampleModel q "fish" = 1/2 := by
  unfold exampleModel
  rw [if_neg (by decide), if_pos rfl]

lemma rerank_const_two_eval :
    rerank constModel ⟨"q", ["a", "b"], none⟩ = .ok ⟨[0, 1], [0, 0]⟩ := by
  unfold rerank
  rw [if_neg (by decide)]
  norm_num [constModel, scoreDescLE, List.enum, List.enumFrom,
    List.mergeSort, List.merge]

lemma rerank_const_one_eval :
    rerank constModel ⟨"q", ["a"], none⟩ = .ok ⟨[0], [0]⟩ := by
  unfold rerank
  rw [if_neg (by decide)]
  norm_num [constModel, List.enum, List.enumFrom, List.mergeSort]

lemma rerank_const_two_top1_eval :
    rerank constModel ⟨"q", ["a", "b"], some 1⟩ = .ok ⟨[0], [0]⟩ := by
  unfold rerank
  rw [if_neg (by decide)]
  norm_num [constModel, scoreDescLE, List.enum, List.enumFrom,
    List.mergeSort, List.merge, pySliceTo]

/-! ## Claim theorems for the reranking service -/

/-- C6: on `documents=["cat","dog","fish"]` with model scores
`[0.2, 0.9, 0.5]` and no `top_k`, the handler returns
`reranked=[1,2,0]` and `scores=[0.9,0.5,0.2]`. -/
theorem rerank_concrete_example :
    rerank exampleModel ⟨"pets", ["cat", "dog", "fish"], none⟩ =
      .ok ⟨[1, 2, 0], [9/10, 1/2, 1/5]⟩ := by
  unfold rerank
  rw [if_neg (by decide)]
  norm_num [scoreDescLE, List.enum, List.enumFrom, List.mergeSort, List.merge,
    exampleModel_cat, exampleModel_dog, exampleModel_fish]

/-- C5: a request with an empty query or an empty document list is rejected
with HTTP 400 and the model is never consulted (the rejection is the same for
every model); any request with a non-empty query and non-empty documents
produces an `ok` result. -/
theorem rerank_input_validation (req : RerankRequest) :
    ((req.query = "" ∨ req.documents = []) →
      ∀ model, rerank model req = .httpError 400 "Missing query or documents.") ∧
    (req.query ≠ "" → req.documents ≠ [] →
      ∀ model, ∃ r, rerank model req = .ok r) := by
  constructor
  · intro h model
    unfold rerank
    rw [if_pos (h.symm.imp id id)]
  · intro hq hd model
    unfold rerank
    rw [if_neg (by simp [hq, hd])]
    cases hk : req.top_k with
    | none => exact ⟨_, rfl⟩
    | some k =>
      by_cases h0 : k = 0 <;> simp [h0]

/-- Witness for C5 at concrete inputs: the empty-query request is rejected,
and a fully populated request succeeds. -/
theorem rerank_input_validation_witness :
    rerank constModel ⟨"", ["a"], none⟩ = .httpError 400 "Missing query or documents." ∧
    ∃ r, rerank constModel ⟨"q", ["a"], none⟩ = .ok r := by
  constructor
  · exact (rerank_input_validation ⟨"", ["a"], none⟩).1 (Or.inl rfl) constModel
  · exact (rerank_input_validation ⟨"q", ["a"], none⟩).2 (by simp) (by simp) constModel

/-- C2: for a non-empty document list of length `N` and a non-empty query,
with `top_k` not supplied, the returned `reranked` list is a permutation of
the indices `0 .. N-1`. -/
theorem rerank_full_permutation (model : String → String → ℚ) (req : RerankRequest)
    (hq : req.query ≠ "") (hd : req.documents ≠ []) (hk : req.top_k = none) :
    ∃ r, rerank model req = .ok r ∧
      r.reranked.Perm (List.range req.documents.length) := by
  rw [rerank_not_rejected model req (by simp [hq, hd]), hk]
  refine ⟨_, rfl, ?_⟩
  have hp := (List.mergeSort_perm (modelScores model req).enum scoreDescLE).map
    (fun x : Nat × ℚ => x.1)
  have hfst : ((modelScores model req).enum.map (fun x : Nat × ℚ => x.1)) =
      List.range (modelScores model req).length := List.enum_map_fst _
  rw [hfst] at hp
  have hlen : (modelScores model req).length = req.documents.length := by
    simp [modelScores]
  rw [hlen] at hp
  exact hp

/-- Witness for C2 at a concrete input with two documents. -/
theorem rerank_full_permutation_witness :
    ∃ r, rerank constModel ⟨"q", ["a", "b"], none⟩ = .ok r ∧
      r.reranked.Perm (List.range 2) := by
  simpa using
    rerank_full_permutation constModel ⟨"q", ["a", "b"], none⟩ (by decide) (by simp) rfl

/-- C1 counterexample: `top_k = -1` is `≤ 0`, yet (being truthy in Python)
it does *not* leave the lists untruncated: on two tied documents the full
permutation would be `[0, 1]`, but `indices[:-1]` drops the last entry and
the handler returns `reranked = [0]`. -/
theorem rerank_negative_topk_cex :
    rerank constModel ⟨"q", ["a", "b"], some (-1)⟩ = .ok ⟨[0], [0]⟩ ∧
    rerank constModel ⟨"q", ["a", "b"], none⟩ = .ok ⟨[0, 1], [0, 0]⟩ ∧
    (-1 : Int) ≤ 0 ∧ ([0] : List Nat) ≠ [0, 1] := by
  refine ⟨?_, rerank_const_two_eval, by norm_num, by simp⟩
  unfold rerank
  rw [if_neg (by decide)]
  norm_num [constModel, scoreDescLE, List.enum, List.enumFrom,
    List.mergeSort, List.merge, pySliceTo]

/-- C1 (amended): relative to the untruncated result `r₀`, a `top_k ≥ 1`
truncates both `reranked` and `scores` to the first `top_k` entries of the
sorted order; a `top_k` that is absent or equal to `0` leaves both lists
untruncated; a negative `top_k` removes the last `|top_k|` entries of both
lists (Python negative-slice semantics). -/
theorem rerank_topk_truncation (model : String → String → ℚ) (q : String)
    (docs : List String) (r₀ : RerankResult)
    (h₀ : rerank model ⟨q, docs, none⟩ = .ok r₀) :
    (∀ k : Int, 1 ≤ k → rerank model ⟨q, docs, some k⟩ =
        .ok ⟨r₀.reranked.take k.toNat, r₀.scores.take k.toNat⟩) ∧
    rerank model ⟨q, docs, some 0⟩ = .ok r₀ ∧
    (∀ k : Int, k < 0 → rerank model ⟨q, docs, some k⟩ =
        .ok ⟨r₀.reranked.take (r₀.reranked.length - (-k).toNat),
             r₀.scores.take (r₀.scores.length - (-k).toNat)⟩) := by
  by_cases hrej : docs = [] ∨ q = ""
  · exfalso
    unfold rerank at h₀
    rw [if_pos hrej] at h₀
    cases h₀
  · rw [rerank_not_rejected model ⟨q, docs, none⟩ hrej] at h₀
    injection h₀ with h'
    subst h'
    refine ⟨?_, ?_, ?_⟩
    · intro k hk1
      rw [rerank_not_rejected model ⟨q, docs, some k⟩ hrej]
      dsimp only
      rw [if_neg (by omega : ¬k = 0)]
      rw [pySliceTo_eq_take, pySliceTo_eq_take,
        if_pos (by omega : (0 : Int) ≤ k), if_pos (by omega : (0 : Int) ≤ k)]
      rfl
    · rw [rerank_not_rejected model ⟨q, docs, some 0⟩ hrej]
      dsimp only
      rw [if_pos rfl]
      rfl
    · intro k hk0
      rw [rerank_not_rejected model ⟨q, docs, some k⟩ hrej]
      dsimp only
      rw [if_neg (by omega : ¬k = 0)]
      rw [pySliceTo_eq_take, pySliceTo_eq_take,
        if_neg (by omega : ¬(0 : Int) ≤ k), if_neg (by omega : ¬(0 : Int) ≤ k)]
      rfl

/-- Witness for the amended C1: with two tied documents, `top_k = 1` keeps
the first entry of the sorted order, `top_k = 0` keeps everything, and
`top_k = -1` drops the last entry. -/
theorem rerank_topk_truncation_witness :
    rerank constModel ⟨"q", ["a", "b"], some 1⟩ = .ok ⟨[0], [0]⟩ ∧
    rerank constModel ⟨"q", ["a", "b"], some 0⟩ = .ok ⟨[0, 1], [0, 0]⟩ ∧
    rerank constModel ⟨"q", ["a", "b"], some (-1)⟩ = .ok ⟨[0], [0]⟩ := by
  have h := rerank_topk_truncation constModel "q" ["a", "b"] ⟨[0, 1], [0, 0]⟩
    rerank_const_two_eval
  refine ⟨?_, h.2.1, ?_⟩
  · simpa using h.1 1 (by norm_num)
  · simpa using h.2.2 (-1) (by norm_num)

/-- C4: every `ok` response has `len(reranked) = len(scores)`; that common
length is `len(documents)` when `top_k` is absent, and
`min(top_k, len(documents))` when a positive `top_k` is given. -/
theorem rerank_result_lengths (model : String → String → ℚ) (req : RerankRequest) :
    (∀ r, rerank model req = .ok r → r.reranked.length = r.scores.length) ∧
    (req.top_k = none → ∀ r, rerank model req = .ok r →
      r.reranked.length = req.documents.length) ∧
    (∀ k : Int, req.top_k = some k → 1 ≤ k → ∀ r, rerank model req = .ok r →
      r.reranked.length = min k.toNat req.documents.length) := by
  have hS : (sortedEnum model req).length = req.documents.length := by
    simp [sortedEnum, modelScores]
  refine ⟨?_, ?_, ?_⟩
  · intro r h
    obtain ⟨n, h1, h2⟩ := rerank_ok_take model req r h
    rw [h1, h2]
    simp
  · intro hk r h
    by_cases hrej : req.documents = [] ∨ req.query = ""
    · unfold rerank at h
      rw [if_pos hrej] at h
      cases h
    · rw [rerank_not_rejected model req hrej, hk] at h
      injection h with h'
      subst h'
      simp [hS]
  · intro k hk hk1 r h
    by_cases hrej : req.documents = [] ∨ req.query = ""
    · unfold rerank at h
      rw [if_pos hrej] at h
      cases h
    · rw [rerank_not_rejected model req hrej, hk] at h
      dsimp only at h
      rw [if_neg (by omega : ¬k = 0)] at h
      injection h with h'
      subst h'
      rw [pySliceTo_eq_take, if_pos (by omega : (0 : Int) ≤ k)]
      simp [hS]

/-- Witness for C4 at concrete inputs: no `top_k` gives length 1 on one
document; `top_k = 1` on two documents gives length `min 1 2`. -/
theorem rerank_result_lengths_witness :
    (RerankResult.mk [0] [0]).reranked.length = (RerankResult.mk [0] [0]).scores.length ∧
    (RerankResult.mk [0] [0]).reranked.length = (["a"] : List String).length ∧
    (RerankResult.mk [0] [0]).reranked.length =
      min (1 : Int).toNat (["a", "b"] : List String).length := by
  have heval1 := rerank_const_two_top1_eval
  exact ⟨(rerank_result_lengths constModel ⟨"q", ["a"], none⟩).1 _ rerank_const_one_eval,
    (rerank_result_lengths constModel ⟨"q", ["a"], none⟩).2.1 rfl _ rerank_const_one_eval,
    (rerank_result_lengths constModel ⟨"q", ["a", "b"], some 1⟩).2.2 1 rfl (by norm_num)
      _ heval1⟩

/-- C3: in every `ok` response, `scores` is non-increasing and parallels
`reranked` — entry `j` of `scores` is the model's score for the document at
original index `reranked[j]` — and ties are broken stably: entries with equal
scores keep their original input-index order. -/
theorem rerank_scores_sorted_parallel_stable (model : String → String → ℚ)
    (req : RerankRequest) (r : RerankResult) (h : rerank model req = .ok r) :
    r.scores.Pairwise (fun a b => b ≤ a) ∧
    r.reranked.length = r.scores.length ∧
    (∀ j (hj : j < r.scores.length) (hj2 : j < r.reranked.length),
      ∃ hd : r.reranked[j] < req.documents.length,
        r.scores[j] = model req.query req.documents[r.reranked[j]]) ∧
    (∀ i j (hi : i < r.reranked.length) (hj : j < r.reranked.length)
        (hi2 : i < r.scores.length) (hj2 : j < r.scores.length),
      i < j → r.scores[i] = r.scores[j] → r.reranked[i] < r.reranked[j]) := by
  obtain ⟨n, h1, h2⟩ := rerank_ok_take model req r h
  have hsorted : (sortedEnum model req).Pairwise (fun a b => b.2 ≤ a.2) :=
    mergeSort_scoreDesc_sorted (modelScores model req)
  have hstable : (sortedEnum model req).Pairwise (fun a b => a.2 = b.2 → a.1 < b.1) :=
    mergeSort_scoreDesc_stable (modelScores model req)
  have hlenMS : (modelScores model req).length = req.documents.length := by
    simp [modelScores]
  have hgetMS : ∀ i (hi : i < (modelScores model req).length)
      (hi2 : i < req.documents.length),
      (modelScores model req)[i] = model req.query req.documents[i] := by
    intro i hi hi2
    simp [modelScores]
  have hjlt : ∀ j, j < r.reranked.length → j < (sortedEnum model req).length := by
    intro j hj
    rw [h1] at hj
    simp at hj
    omega
  have e1 : ∀ j (hj2 : j < r.reranked.length) (hjS : j < (sortedEnum model req).length),
      r.reranked[j] = ((sortedEnum model req)[j]).1 := by
    intro j hj2 hjS
    simp only [h1]
    simp
  have e2 : ∀ j (hj2 : j < r.scores.length) (hjS : j < (sortedEnum model req).length),
      r.scores[j] = ((sortedEnum model req)[j]).2 := by
    intro j hj2 hjS
    simp only [h2]
    simp
  refine ⟨?_, ?_, ?_, ?_⟩
  · rw [h2]
    exact List.Pairwise.sublist (List.take_sublist _ _) (List.pairwise_map.mpr hsorted)
  · rw [h1, h2]
    simp
  · intro j hj hj2
    have hjS := hjlt j hj2
    have hmemj : (sortedEnum model req)[j] ∈ sortedEnum model req := List.getElem_mem _
    obtain ⟨hp, hq⟩ := mem_mergeSort_enum hmemj
    have hd : r.reranked[j] < req.documents.length := by
      rw [e1 j hj2 hjS, ← hlenMS]
      exact hp
    refine ⟨hd, ?_⟩
    rw [e2 j hj hjS, hq]
    have := hgetMS ((sortedEnum model req)[j]).1 hp (by omega)
    rw [this]
    simp only [e1 j hj2 hjS]
  · intro i j hi hj hi2 hj2 hij heq
    have hiS := hjlt i hi
    have hjS := hjlt j hj
    have hst := (List.pairwise_iff_getElem.mp hstable) i j hiS hjS hij
    rw [e1 i hi hiS, e1 j hj hjS]
    apply hst
    rw [← e2 i hi2 hiS, ← e2 j hj2 hjS]
    exact heq

/-- Witness for C3: with two tied documents the response is
`reranked=[0,1]`, `scores=[0,0]`; the score list is non-increasing and the
tie is broken by original index order (`reranked[0] < reranked[1]`). -/
theorem rerank_scores_sorted_parallel_stable_witness :
    ([0, 0] : List ℚ).Pairwise (fun a b => b ≤ a) ∧ (0 : Nat) < 1 := by
  have h := rerank_scores_sorted_parallel_stable constModel ⟨"q", ["a", "b"], none⟩
    ⟨[0, 1], [0, 0]⟩ rerank_const_two_eval
  refine ⟨h.1, ?_⟩
  have h4 := h.2.2.2 0 1 (by simp) (by simp) (by simp) (by simp)
    (by norm_num) rfl
  exact h4

/-! ## Helper lemmas: the evaluation driver's context extraction -/

/-- On a document whose `_source` field (when present) is an object, the
loop body computes exactly the snippet described by the spec. -/
lemma extractDocText_wf (doc : JValue) (h : SourceWF doc) :
    extractDocText doc = .ok (contextTextOfDoc doc) := by
  cases doc with
  | obj fields =>
    have h' : ∀ v, pyDictGet fields "_source" = some v → ∃ sf, v = JValue.obj sf := h
    cases hsv : pyDictGet fields "_source" with
    | none => simp [extractDocText, contextTextOfDoc, hsv, pyDictGet]
    | some v =>
      obtain ⟨sf, rfl⟩ := h' v hsv
      simp [extractDocText, contextTextOfDoc, hsv]
  | null => rfl
  | bool b => rfl
  | num q => rfl
  | str s => rfl
  | arr xs => rfl

/-- The extraction loop collects exactly the per-document snippets, in
order, when no document hits the `AttributeError` path. -/
lemma collectContexts_wf : ∀ (docs : List JValue), (∀ d ∈ docs, SourceWF d) →
    collectContexts docs = .ok (docs.filterMap contextTextOfDoc) := by
  intro docs
  induction docs with
  | nil => intro _; rfl
  | cons d rest ih =>
    intro h
    have hd := extractDocText_wf d (h d (by simp))
    have hr := ih (fun p hp => h p (by simp [hp]))
    cases hc : contextTextOfDoc d <;>
      simp [collectContexts, hd, hr, hc, List.filterMap_cons, Bind.bind, Except.bind]

/-- Full evaluation of the success path of `query_with_context` on an object
body whose `source_documents` is a well-formed list. -/
lemma query_response_eval (fields : List (String × JValue)) (docs : List JValue)
    (hsd : pyDictGet fields "source_documents" = some (JValue.arr docs))
    (hwf : ∀ d ∈ docs, SourceWF d) :
    query_with_context (.response (.obj fields)) =
      .ok ⟨(pyDictGet fields "answer").getD (.str "No answer found."),
           String.intercalate "\n\n" (docs.filterMap contextTextOfDoc),
           decide (String.intercalate "\n\n" (docs.filterMap contextTextOfDoc) = "")⟩ := by
  have hc := collectContexts_wf docs hwf
  cases docs with
  | nil => simp [query_with_context, hsd]
  | cons d rest => simp [query_with_context, hsd, hc]

/-- Full evaluation of the success path when `source_documents` is absent:
the default `[]` is falsy, the loop is skipped, the context is empty and the
warning fires. -/
lemma query_response_nodocs (fields : List (String × JValue))
    (hsd : pyDictGet fields "source_documents" = none) :
    query_with_context (.response (.obj fields)) =
      .ok ⟨(pyDictGet fields "answer").getD (.str "No answer found."), "", true⟩ := by
  simp [query_with_context, hsd]
  rfl

/-! ## Claim theorems for the evaluation driver and the configuration -/

/-- C7: a caught network/service error (timeout, connection refused, non-2xx
via `raise_for_status`) produces the record `{"answer": "Error: <msg>",
"context": ""}` — the answer begins with `"Error:"` — after a single call,
and such records never abort the batch: whenever every question's call
returns a record (as exception outcomes always do), the loop completes with
one record per question. -/
theorem query_with_context_network_failure :
    (∀ msg, query_with_context (.requestException msg) =
      .ok ⟨.str ("Error: " ++ msg), "", false⟩) ∧
    (∀ msg, ∃ rest, "Error: " ++ msg = "Error:" ++ rest) ∧
    (∀ (oracle : String → NetOutcome) (qs : List String),
      (∀ q ∈ qs, ∃ out, query_with_context (oracle q) = .ok out) →
      (runBatch oracle qs).2 = true ∧ (runBatch oracle qs).1.length = qs.length) := by
  refine ⟨fun msg => rfl, fun msg => ⟨" " ++ msg, ?_⟩, ?_⟩
  · rw [← String.append_assoc]
    rfl
  · intro oracle qs
    induction qs with
    | nil => intro _; exact ⟨rfl, rfl⟩
    | cons q rest ih =>
      intro h
      obtain ⟨out, hout⟩ := h q (by simp)
      have ih' := ih (fun p hp => h p (by simp [hp]))
      simp only [runBatch, hout]
      exact ⟨ih'.1, by simp [ih'.2]⟩

/-- Witness for C7: a concrete connection-refused outcome yields the error
record, and a batch of two such failures completes with two records. -/
theorem query_with_context_network_failure_witness :
    query_with_context (.requestException "Connection refused") =
      .ok ⟨.str "Error: Connection refused", "", false⟩ ∧
    (runBatch (fun _ => .requestException "Connection refused") ["q1", "q2"]).2 = true ∧
    (runBatch (fun _ => .requestException "Connection refused") ["q1", "q2"]).1.length = 2 := by
  have h := query_with_context_network_failure
  have hb := h.2.2 (fun _ => .requestException "Connection refused") ["q1", "q2"]
    (fun q _ => ⟨_, rfl⟩)
  exact ⟨h.1 "Connection refused", hb.1, hb.2⟩

/-- C9 counterexample: a body with no `answer` key does *not* fall back to
the empty string — the answer becomes the string `"No answer found."` — and
no warning is tied to the missing answer: with a text-bearing document the
warning does not fire at all.  The warning fires exactly when the joined
context is empty. -/
theorem query_missing_answer_fallback_cex :
    query_with_context (.response (.obj [])) =
      .ok ⟨.str "No answer found.", "", true⟩ ∧
    query_with_context (.response (.obj
        [("source_documents", .arr [.obj [("text", .str "beta")]])])) =
      .ok ⟨.str "No answer found.", "beta", false⟩ ∧
    JValue.str "No answer found." ≠ JValue.str "" := by
  refine ⟨rfl, rfl, ?_⟩
  intro h
  injection h with h'
  exact absurd h' (by decide)

/-- C9 (amended): on a 2xx JSON object body, the driver handles missing and
nested fields defensively, but the fallbacks are: a missing `answer` key
falls back to the string `"No answer found."` (not the empty string), while
the *context* falls back to the empty string, with the warning logged
exactly when the joined context is empty.  Each source document contributes
`doc['_source']['text']` (when present and truthy) or `doc['text']` (when
truthy); non-dict documents and documents without text are skipped; the
snippets are joined with blank lines into the context; a missing
`source_documents` yields the empty context with the warning logged. -/
theorem query_with_context_defensive_extraction :
    (∀ (fields : List (String × JValue)) (docs : List JValue),
      pyDictGet fields "source_documents" = some (JValue.arr docs) →
      (∀ d ∈ docs, SourceWF d) →
      query_with_context (.response (.obj fields)) =
        .ok ⟨(pyDictGet fields "answer").getD (.str "No answer found."),
             String.intercalate "\n\n" (docs.filterMap contextTextOfDoc),
             decide (String.intercalate "\n\n" (docs.filterMap contextTextOfDoc) = "")⟩) ∧
    (∀ fields : List (String × JValue),
      pyDictGet fields "source_documents" = none →
      query_with_context (.response (.obj fields)) =
        .ok ⟨(pyDictGet fields "answer").getD (.str "No answer found."), "", true⟩) := by
  exact ⟨query_response_eval, query_response_nodocs⟩

/-- Witness for C9 on a concrete response: a nested `_source.text`, a flat
`text`, a text-less document and a non-dict document yield the context
`"alpha\n\nbeta"`; a body with no `source_documents` and no `answer` yields
the fallback answer, empty context and the warning. -/
theorem query_with_context_defensive_extraction_witness :
    query_with_context (.response (.obj
        [("answer", .str "A"),
         ("source_documents", .arr
           [.obj [("_source", .obj [("text", .str "alpha")])],
            .obj [("text", .str "beta")],
            .obj [],
            .num 3])])) =
      .ok ⟨.str "A", "alpha\n\nbeta", false⟩ ∧
    query_with_context (.response (.obj [])) =
      .ok ⟨.str "No answer found.", "", true⟩ := by
  constructor
  · have h := query_with_context_defensive_extraction.1
      [("answer", .str "A"),
       ("source_documents", .arr
         [.obj [("_source", .obj [("text", .str "alpha")])],
          .obj [("text", .str "beta")],
          .obj [],
          .num 3])]
      [.obj [("_source", .obj [("text", .str "alpha")])],
       .obj [("text", .str "beta")],
       .obj [],
       .num 3]
      rfl ?_
    · exact h
    · intro d hd
      simp only [List.mem_cons, List.not_mem_nil, or_false] at hd
      rcases hd with rfl | rfl | rfl | rfl
      · intro v hv
        have hv' : some (JValue.obj [("text", JValue.str "alpha")]) = some v := hv
        cases hv'
        exact ⟨_, rfl⟩
      · intro v hv
        have hv' : (none : Option JValue) = some v := hv
        cases hv'
      · intro v hv
        have hv' : (none : Option JValue) = some v := hv
        cases hv'
      · trivial
  · exact query_with_context_defensive_extraction.2 [] rfl

/-- C10 counterexample: on the 2xx body `{"answer": 42}` the method returns
a record whose `answer` is the number `42`, not a string. -/
theorem query_with_context_nonstring_answer_cex :
    query_with_context (.response (.obj [("answer", .num 42)])) =
      .ok ⟨.num 42, "", true⟩ ∧
    (JValue.num 42).isStr = false := ⟨rfl, rfl⟩

/-- C10 (amended): on every caught request exception, and on every 2xx JSON
object body whose source documents avoid the `AttributeError` path, the
method returns a record with exactly the fields `answer` and `context`,
where `context` is a string, and `answer` is the body's raw `answer` value —
a string whenever that field is absent (the default) or itself a string, but
returned unchanged (possibly non-string) otherwise; no
`requests.RequestException` escapes. -/
theorem query_with_context_shape :
    (∀ msg, ∃ s, query_with_context (.requestException msg) = .ok ⟨.str s, "", false⟩) ∧
    (∀ (fields : List (String × JValue)) (docs : List JValue),
      pyDictGet fields "source_documents" = some (JValue.arr docs) →
      (∀ d ∈ docs, SourceWF d) →
      ∃ out, query_with_context (.response (.obj fields)) = .ok out ∧
        out.answer = (pyDictGet fields "answer").getD (.str "No answer found.") ∧
        (pyDictGet fields "answer" = none → out.answer.isStr = true) ∧
        (∀ s, pyDictGet fields "answer" = some (.str s) → out.answer.isStr = true)) ∧
    (∀ fields : List (String × JValue),
      pyDictGet fields "source_documents" = none →
      ∃ out, query_with_context (.response (.obj fields)) = .ok out ∧
        out.answer = (pyDictGet fields "answer").getD (.str "No answer found.") ∧
        (pyDictGet fields "answer" = none → out.answer.isStr = true) ∧
        (∀ s, pyDictGet fields "answer" = some (.str s) → out.answer.isStr = true)) := by
  refine ⟨fun msg => ⟨"Error: " ++ msg, rfl⟩, ?_, ?_⟩
  · intro fields docs hsd hwf
    refine ⟨_, query_response_eval fields docs hsd hwf, rfl, ?_, ?_⟩
    · intro ha
      simp [ha, JValue.isStr]
    · intro s ha
      simp [ha, JValue.isStr]
  · intro fields hsd
    refine ⟨_, query_response_nodocs fields hsd, rfl, ?_, ?_⟩
    · intro ha
      simp [ha, JValue.isStr]
    · intro s ha
      simp [ha, JValue.isStr]

/-- Witness for the amended C10 at concrete inputs: an exception outcome,
a body with a string answer and empty document list, and a body with no
`answer` and no `source_documents`. -/
theorem query_with_context_shape_witness :
    (∃ s, query_with_context (.requestException "boom") = .ok ⟨.str s, "", false⟩) ∧
    (∃ out, query_with_context (.response (.obj
        [("answer", .str "hi"), ("source_documents", .arr [])])) = .ok out ∧
      out.answer.isStr = true) ∧
    (∃ out, query_with_context (.response (.obj [])) = .ok out ∧
      out.answer.isStr = true) := by
  have h := query_with_context_shape
  refine ⟨h.1 "boom", ?_, ?_⟩
  · obtain ⟨out, h1, h2, h3, h4⟩ :=
      h.2.1 [("answer", .str "hi"), ("source_documents", .arr [])] [] rfl (by simp)
    exact ⟨out, h1, h4 "hi" rfl⟩
  · obtain ⟨out, h1, h2, h3, h4⟩ := h.2.2 [] rfl
    exact ⟨out, h1, h3 rfl⟩

/-- C8: evaluation of the configuration-loading paths.  When `config.yml` is
absent the model name does fall back to the default, but the Python name
`config` is never bound, so the `__main__` port selection raises `NameError`
instead of falling back to port 8008; a malformed file raises an uncaught
`yaml.YAMLError` at startup.  Only a parseable dict (possibly lacking the
keys) reaches the defaults for both settings. -/
theorem reranker_config_fallback_bug :
    loadStartupConfig .absent = .ok (none, .str defaultModelName) ∧
    (loadStartupConfig .absent).bind (fun st => mainPort st.1) = .error "NameError" ∧
    loadStartupConfig .unparsable = .error "yaml.YAMLError" ∧
    (loadStartupConfig (.parsed (.obj []))).bind (fun st => mainPort st.1) =
      .ok (.num 8008) ∧
    loadStartupConfig (.parsed (.obj [])) = .ok (some [], .str defaultModelName) :=
  ⟨rfl, rfl, rfl, rfl, rfl⟩
